import Mathlib

/-!
Verification development for the `imageboardz/4` message board
(`src/main.rs`).  The Rust program is shallowly embedded: pure
functions become Lean functions, the SQLite table and the upload
directories become explicit state (a list of rows, a list of
`(path, bytes)` pairs), and the multipart request handler becomes a
function from the decoded field list and the state to a response plus
the new state.  External collaborators (the `image` crate's decoder,
`uuid` generation, the current clock) are passed in as parameters.
-/

namespace Board

/-- `MediaType` from `src/main.rs` lines 16-20. -/
inductive MediaType where
  | Image : MediaType
  | Video : MediaType
deriving DecidableEq, Repr

/-- `MediaType::to_str`, `src/main.rs` lines 23-28. -/
def MediaType.to_str : MediaType → String
  | MediaType.Image => "Image"
  | MediaType.Video => "Video"

/-- `MediaType::from_str`, `src/main.rs` lines 30-36. -/
def MediaType.from_str (s : String) : Option MediaType :=
  if s = "Image" then some MediaType.Image
  else if s = "Video" then some MediaType.Video
  else none

/-- `Post`, `src/main.rs` lines 39-48 (`i32`/`i64` embedded as `Int`). -/
structure Post where
  id : Int
  name : String
  subject : String
  body : String
  timestamp : Int
  media_url : Option String
  media_type : Option MediaType
deriving DecidableEq, Repr

/-- `IMAGE_UPLOAD_DIR`, `src/main.rs` line 50. -/
def IMAGE_UPLOAD_DIR : String := "./uploads/images/"

/-- `VIDEO_UPLOAD_DIR`, `src/main.rs` line 51. -/
def VIDEO_UPLOAD_DIR : String := "./uploads/videos/"

/-- One row of the `posts` table (`db_init`, `src/main.rs` lines 87-101):
`media_url` and `media_type` are nullable `TEXT` columns, the rest are
`NOT NULL`. -/
structure Row where
  id : Int
  name : String
  subject : String
  body : String
  timestamp : Int
  media_url : Option String
  media_type_str : Option String
deriving DecidableEq, Repr

/-- The SQLite database state: the `posts` table in rowid (insertion)
order together with the next `AUTOINCREMENT` id. -/
structure Store where
  rows : List Row
  nextId : Int
deriving DecidableEq, Repr

/-- The row written by `insert_post` (`src/main.rs` lines 127-142): the
store assigns the id, `media_type` is serialized with `to_str`. -/
def rowOfPost (id : Int) (p : Post) : Row :=
  { id := id
    name := p.name
    subject := p.subject
    body := p.body
    timestamp := p.timestamp
    media_url := p.media_url
    media_type_str := p.media_type.map MediaType.to_str }

/-- `insert_post`, `src/main.rs` lines 127-142, with SQLite's
`AUTOINCREMENT` id assignment made explicit. -/
def insert_post (st : Store) (p : Post) : Store :=
  { rows := st.rows ++ [rowOfPost st.nextId p], nextId := st.nextId + 1 }

/-- The row-to-`Post` conversion inside `load_posts_from_db`
(`src/main.rs` lines 105-117): `media_type` is parsed with
`as_deref().and_then(MediaType::from_str)`, so an unrecognized stored
string becomes `none`. -/
def postOfRow (r : Row) : Post :=
  { id := r.id
    name := r.name
    subject := r.subject
    body := r.body
    timestamp := r.timestamp
    media_url := r.media_url
    media_type := r.media_type_str.bind MediaType.from_str }

/-- Stable insertion of a row into a timestamp-descending list: the new
row goes after every already-present row whose timestamp is ≥ its own.
Used to model the SQL `ORDER BY timestamp DESC`. -/
def insertTsDesc (r : Row) : List Row → List Row
  | [] => [r]
  | x :: xs => if r.timestamp ≤ x.timestamp then x :: insertTsDesc r xs else r :: x :: xs

/-- The result order of `SELECT ... ORDER BY timestamp DESC`
(`src/main.rs` line 104): a stable sort of the table scan (rowid order)
by timestamp descending.  The SQL names no secondary sort key, so rows
with equal timestamps keep their scan order. -/
def orderByTsDesc (rows : List Row) : List Row :=
  rows.foldl (fun acc r => insertTsDesc r acc) []

/-- `load_posts_from_db`, `src/main.rs` lines 103-125. -/
def load_posts_from_db (rows : List Row) : List Post :=
  (orderByTsDesc rows).map postOfRow

/-- The double-quote character. -/
def dq : Char := Char.ofNat 34

/-- The apostrophe character. -/
def apos : Char := Char.ofNat 39

/-- Per-character encoding of `html_escape::encode_safe`: `&`, `<`,
`>`, `"` and the apostrophe are replaced by their entities, everything
else is kept. -/
def escChar (c : Char) : List Char :=
  if c = '&' then "&amp;".data
  else if c = '<' then "&lt;".data
  else if c = '>' then "&gt;".data
  else if c = dq then "&quot;".data
  else if c = apos then "&#x27;".data
  else [c]

/-- `escape_html`, `src/main.rs` lines 144-146 (`encode_safe` over the
whole string). -/
def escape_html (s : String) : String :=
  String.mk (s.data.flatMap escChar)

/-- Decimal digits of a natural number, most significant first. -/
def natChars (n : Nat) : List Char :=
  if h : n < 10 then [Char.ofNat (48 + n)]
  else natChars (n / 10) ++ [Char.ofNat (48 + n % 10)]
decreasing_by exact Nat.div_lt_self (by omega) (by omega)

/-- Decimal rendering of an `Int`, modelling Rust's `Display` for the
post id interpolated by `format!`. -/
def intStr (i : Int) : String :=
  if i < 0 then String.mk ('-' :: natChars i.natAbs) else String.mk (natChars i.natAbs)

/-- `render_error_page`, `src/main.rs` lines 148-167: title and message
are HTML-escaped into the fixed error page template. -/
def render_error_page (title message : String) : String :=
  "<!DOCTYPE html>\n<html lang=\"en\">\n<head>\n    <meta charset=\"UTF-8\">\n    <title>"
    ++ escape_html title
    ++ "</title>\n    <link rel=\"stylesheet\" href=\"/static/css/style.css\">\n</head>\n<body>\n    <h1>"
    ++ escape_html title
    ++ "</h1>\n    <p>"
    ++ escape_html message
    ++ "</p>\n    <a href=\"/\">Back to Home</a>\n</body>\n</html>"

/-- The `files_html` fragment of `render_post`, `src/main.rs` lines
292-324: rendered only when both `media_url` and `media_type` are
present; the url is HTML-escaped at every interpolation. -/
def files_html (p : Post) : String :=
  match p.media_url with
  | some url =>
    match p.media_type with
    | some MediaType.Image =>
      "<div class=\"files\">\n    <div class=\"file\">\n        <p class=\"fileinfo\">File: <a href=\""
        ++ escape_html url ++ "\">" ++ escape_html url
        ++ "</a></p>\n        <a href=\"" ++ escape_html url
        ++ "\" target=\"_blank\"><img class=\"post-image\" src=\"" ++ escape_html url
        ++ "\" alt=\"\" /></a>\n    </div>\n</div>"
    | some MediaType.Video =>
      "<div class=\"files\">\n    <div class=\"file\">\n        <p class=\"fileinfo\">File: <a href=\""
        ++ escape_html url ++ "\">" ++ escape_html url
        ++ "</a></p>\n        <video class=\"post-video\" controls>\n            <source src=\""
        ++ escape_html url
        ++ "\" type=\"video/mp4\">\n            Your browser does not support the video tag.\n        </video>\n    </div>\n</div>"
    | none => ""
  | none => ""

/-- `render_post`, `src/main.rs` lines 291-344: the thread fragment with
`subject`, `name` and `body` HTML-escaped and the id interpolated as a
decimal number. -/
def render_post (p : Post) : String :=
  "<div class=\"thread\" id=\"thread_" ++ intStr p.id ++ "\" data-board=\"a\">\n"
    ++ files_html p
    ++ "\n<div class=\"post op\" id=\"op_" ++ intStr p.id
    ++ "\">\n<p class=\"intro\"><span class=\"subject\">" ++ escape_html p.subject
    ++ "</span> <span class=\"name\">" ++ escape_html p.name
    ++ "</span>\n    &nbsp;<a href=\"threads/thread_" ++ intStr p.id
    ++ ".html\">Reply</a>\n</p>\n<div class=\"body\">" ++ escape_html p.body
    ++ "</div>\n</div>\n<br class=\"clear\"/>\n<hr/>\n</div>"

/-- Rust's `Vec::join(sep)` over strings. -/
def joinSep (sep : String) : List String → String
  | [] => ""
  | [x] => x
  | x :: y :: xs => x ++ sep ++ joinSep sep (y :: xs)

/-- The `threads_html` value computed by `homepage`, `src/main.rs` lines
183-187: the "no posts" placeholder for an empty feed, otherwise the
post fragments joined by newlines, over the posts loaded from the
database. -/
def homepage_threads (rows : List Row) : String :=
  let posts := load_posts_from_db rows
  if posts.isEmpty then "<p>No posts yet.</p>"
  else joinSep "\n" (posts.map render_post)

/-- Raw bytes of an uploaded file. -/
abbrev Bytes := List Nat

/-- One decoded multipart field, as seen by the loop in `create_post`
(`src/main.rs` lines 356-444): `fname` is the content-disposition name
(`none` models `get_name()` returning `None`, which the loop skips),
`filename` the declared file name, `text` the lossy-UTF-8 decoding of
the field's bytes (used for the text fields) and `bytes` the raw bytes
(used for file fields). -/
structure MPField where
  fname : Option String
  filename : Option String
  text : String
  bytes : Bytes
deriving DecidableEq, Repr

/-- The flat contents of the two upload directories: `(path, contents)`
pairs. -/
abbrev FSState := List (String × Bytes)

/-- `std::fs::File::create` + the chunked `write_all` loop: the file at
`path` ends up holding the streamed bytes. -/
def writeFile (fs : FSState) (path : String) (b : Bytes) : FSState :=
  fs ++ [(path, b)]

/-- `std::fs::remove_file`. -/
def removeFile (fs : FSState) (path : String) : FSState :=
  fs.filter (fun e => e.1 ≠ path)

/-- The extension-to-MIME table of `mime_guess::from_path(..)` for the
extensions exercised here; every extension outside the table maps to
`application/octet-stream`, which is also what
`first_or_octet_stream()` yields for a path with no extension. -/
def mimeFromExt : String → String × String
  | "jpg" => ("image", "jpeg")
  | "jpeg" => ("image", "jpeg")
  | "png" => ("image", "png")
  | "gif" => ("image", "gif")
  | "webp" => ("image", "webp")
  | "bmp" => ("image", "bmp")
  | "svg" => ("image", "svg+xml")
  | "tiff" => ("image", "tiff")
  | "mp4" => ("video", "mp4")
  | "webm" => ("video", "webm")
  | "avi" => ("video", "x-msvideo")
  | "mov" => ("video", "quicktime")
  | "exe" => ("application", "x-msdownload")
  | "pdf" => ("application", "pdf")
  | "txt" => ("text", "plain")
  | "html" => ("text", "html")
  | _ => ("application", "octet-stream")

/-- Rust's `Path::extension()`: the part of the file name after the
last `.`, or `None` when there is no `.` or the only `.` is the leading
character. -/
def extOf (fn : String) : Option String :=
  let cs := fn.data
  let e := (cs.reverse.takeWhile (fun c => c ≠ '.')).reverse
  if e.length = cs.length then none
  else if cs = '.' :: e then none
  else some (String.mk e)

/-- `mime_guess::from_path(filename).first_or_octet_stream()`
(`src/main.rs` line 389): `(top-level type, subtype)`.  `from_ext` is
case-insensitive, so the extension is lowercased first. -/
def mimeOfName (fn : String) : String × String :=
  match extOf fn with
  | some e => mimeFromExt (String.mk (e.data.map Char.toLower))
  | none => ("application", "octet-stream")

/-- The image-subtype allow-list check of `src/main.rs` line 392
(`matches!(subtype, "jpeg" | "jpg" | "png" | "gif" | "webp")`). -/
def imageSubOk (s : String) : Bool :=
  s = "jpeg" ∨ s = "jpg" ∨ s = "png" ∨ s = "gif" ∨ s = "webp"

/-- Rust's `str::trim`: strip leading and trailing whitespace. -/
def strTrim (s : String) : String :=
  String.mk (((s.data.dropWhile Char.isWhitespace).reverse.dropWhile
    Char.isWhitespace).reverse)

/-- The accumulator threaded through the multipart loop of
`create_post`: the text buffers, the media fields, the filesystem state
and the number of uuids consumed so far. -/
structure Acc where
  name : String
  subject : String
  body : String
  media_url : Option String
  media_type : Option MediaType
  fs : FSState
  k : Nat
deriving DecidableEq, Repr

/-- Result of the multipart loop: either an early `400` return with the
response body and the filesystem state at that point, or the final
accumulator. -/
inductive FieldsOut where
  | early : String → FSState → FieldsOut
  | done : Acc → FieldsOut
deriving DecidableEq, Repr

/-- The multipart field loop of `create_post` (`src/main.rs` lines
356-444).  `validImage` models `image::open(..).is_err()` on the stored
bytes (the decoder of the `image` crate); `uuid` supplies the values of
`Uuid::new_v4().to_string()` in generation order. -/
def procFields (validImage : Bytes → Bool) (uuid : Nat → String) :
    List MPField → Acc → FieldsOut
  | [], a => FieldsOut.done a
  | f :: rest, a =>
    match f.fname with
    | none => procFields validImage uuid rest a
    | some n =>
      if n = "name" then
        procFields validImage uuid rest { a with name := a.name ++ f.text }
      else if n = "subject" then
        procFields validImage uuid rest { a with subject := a.subject ++ f.text }
      else if n = "body" then
        procFields validImage uuid rest { a with body := a.body ++ f.text }
      else if n = "file" then
        match f.filename with
        | none => procFields validImage uuid rest a
        | some fn =>
          if strTrim fn = "" then procFields validImage uuid rest a
          else
            let mt := mimeOfName fn
            if mt.1 = "image" then
              if imageSubOk mt.2 then
                let sanitized := uuid a.k ++ "." ++ mt.2
                let path := IMAGE_UPLOAD_DIR ++ sanitized
                let fs1 := writeFile a.fs path f.bytes
                if validImage f.bytes then
                  procFields validImage uuid rest
                    { a with media_url := some ("/uploads/images/" ++ sanitized)
                             media_type := some MediaType.Image
                             fs := fs1
                             k := a.k + 1 }
                else FieldsOut.early "Invalid image file" (removeFile fs1 path)
              else FieldsOut.early "Unsupported image format" a.fs
            else if mt.1 = "video" then
              if mt.2 = "mp4" then
                let sanitized := uuid a.k ++ "." ++ mt.2
                let path := VIDEO_UPLOAD_DIR ++ sanitized
                let fs1 := writeFile a.fs path f.bytes
                procFields validImage uuid rest
                  { a with media_url := some ("/uploads/videos/" ++ sanitized)
                           media_type := some MediaType.Video
                           fs := fs1
                           k := a.k + 1 }
              else FieldsOut.early "Unsupported video format" a.fs
            else FieldsOut.early "Unsupported media type" a.fs
      else procFields validImage uuid rest a

/-- HTTP responses produced by `create_post`. -/
inductive HResp where
  | badRequest : String → HResp
  | seeOther : String → HResp
deriving DecidableEq, Repr

/-- The HTTP status code of a response. -/
def HResp.status : HResp → Nat
  | HResp.badRequest _ => 400
  | HResp.seeOther _ => 303

/-- The initial accumulator of `create_post` (`src/main.rs` lines
350-354) over the current filesystem state. -/
def initAcc (fs : FSState) : Acc :=
  { name := "", subject := "", body := "", media_url := none, media_type := none,
    fs := fs, k := 0 }

/-- `create_post`, `src/main.rs` lines 346-475: run the multipart loop,
then reject if any trimmed text field is empty, otherwise build the
`Post` (timestamp from the clock, id 0 as the autoincrement
placeholder) and insert it.  Returns the response together with the new
database and filesystem states.  The model's `insert_post` is total, so
the 500 branch of the source does not arise. -/
def create_post (validImage : Bytes → Bool) (uuid : Nat → String) (now : Int)
    (fields : List MPField) (st : Store) (fs : FSState) :
    HResp × Store × FSState :=
  match procFields validImage uuid fields (initAcc fs) with
  | FieldsOut.early msg fs' => (HResp.badRequest msg, st, fs')
  | FieldsOut.done a =>
    if strTrim a.name = "" ∨ strTrim a.subject = "" ∨ strTrim a.body = "" then
      (HResp.badRequest
        (render_error_page "Bad Request" "Name, Subject, and Comment cannot be empty"),
        st, a.fs)
    else
      let post : Post :=
        { id := 0
          name := strTrim a.name
          subject := strTrim a.subject
          body := strTrim a.body
          timestamp := now
          media_url := a.media_url
          media_type := a.media_type }
      (HResp.seeOther "/", insert_post st post, a.fs)

/-! ### Escaping: no `<script>` substring can appear in rendered output -/

/-- The tail of the forbidden pattern, after its opening `<`. -/
def patTail : List Char := "script>".data

/-- The forbidden pattern `<script>` as a character list. -/
def ltScript : List Char := '<' :: patTail

/-- `pat` occurs as a contiguous substring of `hay`. -/
def strContains (hay pat : String) : Prop := pat.data <:+: hay.data

instance (hay pat : String) : Decidable (strContains hay pat) :=
  inferInstanceAs (Decidable (pat.data <:+: hay.data))

/-- A character list is `Good` when every occurrence of `<` in it is
followed by text that disagrees with `script>` at some position inside
the list itself; such a list can never contribute the opening of a
`<script>` occurrence, no matter what is appended after it. -/
def Good (l : List Char) : Prop :=
  ∀ α β, l = α ++ '<' :: β → ¬ (β <+: patTail) ∧ ¬ (patTail <+: β)

theorem goodNil : Good [] := by
  intro α β h
  exact absurd h.symm (List.append_ne_nil_of_right_ne_nil α (by simp))

theorem goodOfNoLt (l : List Char) (h : '<' ∉ l) : Good l := by
  intro α β heq
  exact absurd (heq ▸ List.mem_append_right α (List.mem_cons_self _ _)) h

/-- Two lists sharing no prefix relation disagree at an index present
in both. -/
theorem exists_mismatch :
    ∀ {l₁ l₂ : List Char}, ¬ (l₁ <+: l₂) → ¬ (l₂ <+: l₁) →
      ∃ (j : Nat) (a b : Char), l₁[j]? = some a ∧ l₂[j]? = some b ∧ a ≠ b := by
  intro l₁
  induction l₁ with
  | nil => intro l₂ h₁ _; exact absurd (List.nil_prefix) h₁
  | cons a l₁ ih =>
    intro l₂ h₁ h₂
    cases l₂ with
    | nil => exact absurd (List.nil_prefix) h₂
    | cons b l₂ =>
      by_cases hab : a = b
      · subst hab
        have h₁' : ¬ (l₁ <+: l₂) := fun h => h₁ (List.cons_prefix_cons.mpr ⟨rfl, h⟩)
        have h₂' : ¬ (l₂ <+: l₁) := fun h => h₂ (List.cons_prefix_cons.mpr ⟨rfl, h⟩)
        obtain ⟨j, x, y, hx, hy, hxy⟩ := ih h₁' h₂'
        exact ⟨j + 1, x, y, by simpa using hx, by simpa using hy, hxy⟩
      · exact ⟨0, a, b, by simp, by simp, hab⟩

/-- A prefix agrees with the longer list at every index it covers. -/
theorem pref_getElem {l m : List Char} (h : l <+: m) {j : Nat} {a : Char}
    (hj : l[j]? = some a) : m[j]? = some a := by
  obtain ⟨t, rfl⟩ := h
  have hlt : j < l.length := by
    by_contra hge
    rw [List.getElem?_eq_none (Nat.le_of_not_lt hge)] at hj
    exact Option.noConfusion hj
  rw [List.getElem?_append_left hlt]
  exact hj

/-- `Good` is closed under concatenation. -/
theorem goodAppend {x y : List Char} (hx : Good x) (hy : Good y) :
    Good (x ++ y) := by
  intro α β heq
  rcases List.append_eq_append_iff.mp heq with ⟨a', _, hy'⟩ | ⟨c', hx', hc⟩
  · exact hy a' β hy'
  · cases c' with
    | nil =>
      simp only [List.nil_append] at hc
      exact hy [] β hc.symm
    | cons c c'' =>
      have hc' := hc.symm
      rw [List.cons_append] at hc'
      obtain ⟨hcEq, hβ⟩ := List.cons.inj hc'
      subst hcEq
      have hg := hx α c'' hx'
      obtain ⟨j, a, b, ha, hb, hab⟩ := exists_mismatch hg.1 hg.2
      have hjlt : j < c''.length := by
        by_contra hge
        rw [List.getElem?_eq_none (Nat.le_of_not_lt hge)] at ha
        exact Option.noConfusion ha
      have hcat : (c'' ++ y)[j]? = some a := by
        rw [List.getElem?_append_left hjlt]; exact ha
      subst hβ
      constructor
      · intro hp
        have hpa := pref_getElem hp hcat
        rw [hb] at hpa
        exact hab (Option.some.inj hpa).symm
      · intro hp
        have hpb := pref_getElem hp hb
        rw [hcat] at hpb
        exact hab (Option.some.inj hpb)

/-- Executable check that every `<` in a fixed template chunk is
locally incompatible with `script>`. -/
def chkGood : List Char → Bool
  | [] => true
  | c :: rest =>
    (if c = '<' then !(rest.isPrefixOf patTail) && !(patTail.isPrefixOf rest) else true)
      && chkGood rest

theorem good_of_chkGood : ∀ {l : List Char}, chkGood l = true → Good l := by
  intro l
  induction l with
  | nil => intro _; exact goodNil
  | cons c rest ih =>
    intro h
    rw [chkGood, Bool.and_eq_true] at h
    intro α β heq
    cases α with
    | nil =>
      simp only [List.nil_append] at heq
      obtain ⟨hc, hβ⟩ := List.cons.inj heq
      subst hc; subst hβ
      have h1 := h.1
      rw [if_pos rfl, Bool.and_eq_true, Bool.not_eq_true', Bool.not_eq_true'] at h1
      constructor
      · intro hp
        rw [List.isPrefixOf_iff_prefix.mpr hp] at h1
        exact Bool.noConfusion h1.1
      · intro hp
        rw [List.isPrefixOf_iff_prefix.mpr hp] at h1
        exact Bool.noConfusion h1.2
    | cons a α' =>
      rw [List.cons_append] at heq
      obtain ⟨_, hβ⟩ := List.cons.inj heq
      exact ih h.2 α' β hβ

/-- A `Good` list contains no occurrence of `<script>`. -/
theorem not_ltScript_of_good {l : List Char} (h : Good l) : ¬ (ltScript <:+: l) := by
  rintro ⟨u, v, huv⟩
  have hl : l = u ++ '<' :: (patTail ++ v) := by
    rw [← huv]; simp [ltScript]
  exact (h u (patTail ++ v) hl).2 ⟨v, rfl⟩

/-- The escape of a single character never contains `<`. -/
theorem escChar_no_lt (c : Char) : '<' ∉ escChar c := by
  unfold escChar
  split_ifs with h1 h2 h3 h4 h5
  · decide
  · decide
  · decide
  · decide
  · decide
  · intro hm
    rw [List.mem_singleton] at hm
    exact h2 hm.symm

/-- HTML-escaped text never contains `<`. -/
theorem escape_no_lt (s : String) : '<' ∉ (escape_html s).data := by
  intro hm
  unfold escape_html at hm
  rw [show (String.mk (s.data.flatMap escChar)).data = s.data.flatMap escChar from rfl] at hm
  obtain ⟨c, _, hc⟩ := List.mem_flatMap.mp hm
  exact escChar_no_lt c hc

/-- Decimal digit characters are not `<`. -/
theorem digit_ne_lt : ∀ m : Nat, m < 10 → Char.ofNat (48 + m) ≠ '<' := by decide

/-- The decimal rendering of a natural number never contains `<`. -/
theorem natChars_no_lt (n : Nat) : '<' ∉ natChars n := by
  induction n using Nat.strong_induction_on with
  | _ n ih =>
    rw [natChars]
    split
    · intro hm
      rw [List.mem_singleton] at hm
      exact digit_ne_lt n (by omega) hm.symm
    · intro hm
      rcases List.mem_append.mp hm with hm | hm
      · exact ih (n / 10) (Nat.div_lt_self (by omega) (by omega)) hm
      · rw [List.mem_singleton] at hm
        exact digit_ne_lt (n % 10) (Nat.mod_lt n (by omega)) hm.symm

/-- The decimal rendering of an `Int` never contains `<`. -/
theorem intStr_no_lt (i : Int) : '<' ∉ (intStr i).data := by
  unfold intStr
  split
  · intro hm
    rw [show (String.mk ('-' :: natChars i.natAbs)).data = '-' :: natChars i.natAbs from rfl] at hm
    rcases List.mem_cons.mp hm with hm | hm
    · exact absurd hm.symm (by decide)
    · exact natChars_no_lt i.natAbs hm
  · intro hm
    exact natChars_no_lt i.natAbs hm

/-- A suffix occurrence extends over an appended head. -/
theorem infix_skip {l y : List Char} (x : List Char) (h : l <:+: y) :
    l <:+: x ++ y := by
  obtain ⟨s, t, hst⟩ := h
  exact ⟨x ++ s, t, by rw [← hst]; simp⟩

/-- A list is an infix of itself followed by anything. -/
theorem infix_here {l : List Char} (t : List Char) : l <:+: l ++ t :=
  ⟨[], t, by simp⟩

theorem good_files_html (p : Post) : Good (files_html p).data := by
  rcases p with ⟨id, nm, subj, bd, ts, mu, mt⟩
  cases mu with
  | none => exact goodNil
  | some url =>
    cases mt with
    | none => exact goodNil
    | some m =>
      cases m <;>
      · simp only [files_html, String.data_append]
        repeat' apply goodAppend
        all_goals
          first
          | exact goodOfNoLt _ (escape_no_lt _)
          | exact good_of_chkGood (by decide)

theorem good_render (p : Post) : Good (render_post p).data := by
  unfold render_post
  simp only [String.data_append]
  repeat' apply goodAppend
  all_goals
    first
    | exact goodOfNoLt _ (escape_no_lt _)
    | exact goodOfNoLt _ (intStr_no_lt _)
    | exact good_files_html p
    | exact good_of_chkGood (by decide)

theorem good_joinSep : ∀ {l : List String}, (∀ x ∈ l, Good x.data) →
    Good (joinSep "\n" l).data := by
  intro l
  induction l with
  | nil => intro _; exact goodNil
  | cons x xs ih =>
    intro h
    cases xs with
    | nil => exact h x (by simp)
    | cons y ys =>
      rw [joinSep]
      simp only [String.data_append]
      apply goodAppend (goodAppend (h x (by simp)) (good_of_chkGood (by decide)))
      exact ih (fun z hz => h z (List.mem_cons_of_mem x hz))

theorem good_homepage_threads (rows : List Row) : Good (homepage_threads rows).data := by
  unfold homepage_threads
  simp only []
  split
  · exact good_of_chkGood (by decide)
  · apply good_joinSep
    intro x hx
    obtain ⟨p, _, hp⟩ := List.mem_map.mp hx
    exact hp ▸ good_render p

/-- Escaping a string containing `<script>` yields a string containing
the entity form `&lt;script&gt;`. -/
theorem contains_escape {s : String} (h : strContains s "<script>") :
    "&lt;script&gt;".data <:+: (escape_html s).data := by
  obtain ⟨u, v, huv⟩ := h
  refine ⟨u.flatMap escChar, v.flatMap escChar, ?_⟩
  have hdata : (escape_html s).data = s.data.flatMap escChar := rfl
  rw [hdata, ← huv]
  rw [List.flatMap_append, List.flatMap_append]
  have hmid : ("<script>".data).flatMap escChar = "&lt;script&gt;".data := by decide
  rw [hmid]

/-- An infix occurrence extends over an appended tail. -/
theorem infix_ext {l m : List Char} (t : List Char) (h : l <:+: m) :
    l <:+: m ++ t := by
  obtain ⟨s, u, hsu⟩ := h
  exact ⟨s, u ++ t, by rw [← hsu]; simp⟩

theorem esc_subject_in_render (p : Post) :
    (escape_html p.subject).data <:+: (render_post p).data := by
  unfold render_post
  simp only [String.data_append, List.append_assoc]
  repeat first | exact infix_here _ | apply infix_skip

theorem esc_name_in_render (p : Post) :
    (escape_html p.name).data <:+: (render_post p).data := by
  unfold render_post
  simp only [String.data_append, List.append_assoc]
  repeat first | exact infix_here _ | apply infix_skip

theorem esc_body_in_render (p : Post) :
    (escape_html p.body).data <:+: (render_post p).data := by
  unfold render_post
  simp only [String.data_append, List.append_assoc]
  repeat first | exact infix_here _ | apply infix_skip

theorem esc_url_in_render (p : Post) {url : String} (hu : p.media_url = some url)
    (hm : p.media_type.isSome) :
    (escape_html url).data <:+: (render_post p).data := by
  have hf : (escape_html url).data <:+: (files_html p).data := by
    rcases p with ⟨id, nm, subj, bd, ts, mu, mt⟩
    simp only at hu ⊢
    subst hu
    cases mt with
    | none => exact absurd hm (by simp)
    | some m =>
      cases m <;>
      · simp only [files_html, String.data_append, List.append_assoc]
        repeat first | exact infix_here _ | apply infix_skip
  unfold render_post
  simp only [String.data_append, List.append_assoc]
  repeat first | exact infix_ext _ hf | apply infix_skip

theorem ltScript_eq : "<script>".data = ltScript := by decide

/-- C1: for every persisted post, the rendered post fragment escapes
`name`, `subject`, `body` and `media_url` before interpolation: whenever
one of these fields contains `<script>`, the rendered fragment contains
the escaped entity form `&lt;script&gt;` (the url whenever it is
rendered at all, i.e. when a media type is present), and neither the
fragment nor the whole rendered feed ever contains an unescaped
`<script>` substring. -/
theorem claim1_render_escapes (p : Post) (rows : List Row) :
    (¬ strContains (render_post p) "<script>") ∧
    (¬ strContains (homepage_threads rows) "<script>") ∧
    (strContains p.name "<script>" → strContains (render_post p) "&lt;script&gt;") ∧
    (strContains p.subject "<script>" → strContains (render_post p) "&lt;script&gt;") ∧
    (strContains p.body "<script>" → strContains (render_post p) "&lt;script&gt;") ∧
    (∀ url, p.media_url = some url → p.media_type.isSome →
      strContains url "<script>" → strContains (render_post p) "&lt;script&gt;") := by
  refine ⟨?_, ?_, ?_, ?_, ?_, ?_⟩
  · show ¬ ("<script>".data <:+: (render_post p).data)
    rw [ltScript_eq]
    exact not_ltScript_of_good (good_render p)
  · show ¬ ("<script>".data <:+: (homepage_threads rows).data)
    rw [ltScript_eq]
    exact not_ltScript_of_good (good_homepage_threads rows)
  · intro h
    exact (contains_escape h).trans (esc_name_in_render p)
  · intro h
    exact (contains_escape h).trans (esc_subject_in_render p)
  · intro h
    exact (contains_escape h).trans (esc_body_in_render p)
  · intro url hu hm h
    exact (contains_escape h).trans (esc_url_in_render p hu hm)

theorem claim1_render_escapes_witness :
    ¬ strContains (render_post
        { id := 1, name := "anon", subject := "<script>alert(1)</script>", body := "hi",
          timestamp := 5, media_url := none, media_type := none }) "<script>" ∧
    strContains (render_post
        { id := 1, name := "anon", subject := "<script>alert(1)</script>", body := "hi",
          timestamp := 5, media_url := none, media_type := none }) "&lt;script&gt;" :=
  ⟨(claim1_render_escapes
      { id := 1, name := "anon", subject := "<script>alert(1)</script>", body := "hi",
        timestamp := 5, media_url := none, media_type := none } []).1,
   (claim1_render_escapes
      { id := 1, name := "anon", subject := "<script>alert(1)</script>", body := "hi",
        timestamp := 5, media_url := none, media_type := none } []).2.2.2.1 (by decide)⟩

/-! ### C9: MediaType string round-trip and unrecognized stored values -/

/-- C9: `from_str` inverts `to_str` on both `MediaType` values; every
string other than `"Image"` and `"Video"` parses to `none`; and the
store read path (`load_posts_from_db`) maps a row whose stored
`media_type` string is unrecognized to a post with no `media_type`
rather than failing. -/
theorem claim9_mediatype_roundtrip :
    (∀ m : MediaType, MediaType.from_str (MediaType.to_str m) = some m) ∧
    (∀ s : String, s ≠ "Image" → s ≠ "Video" → MediaType.from_str s = none) ∧
    (∀ r : Row, ∀ s : String, r.media_type_str = some s →
      s ≠ "Image" → s ≠ "Video" → (postOfRow r).media_type = none) := by
  refine ⟨?_, ?_, ?_⟩
  · intro m; cases m <;> rfl
  · intro s h1 h2
    unfold MediaType.from_str
    rw [if_neg h1, if_neg h2]
  · intro r s hr h1 h2
    show r.media_type_str.bind MediaType.from_str = none
    rw [hr]
    show MediaType.from_str s = none
    unfold MediaType.from_str
    rw [if_neg h1, if_neg h2]

theorem claim9_mediatype_roundtrip_witness :
    MediaType.from_str (MediaType.to_str MediaType.Image) = some MediaType.Image ∧
    MediaType.from_str "Gif" = none ∧
    (postOfRow
      { id := 1, name := "n", subject := "s", body := "b", timestamp := 0,
        media_url := some "/uploads/images/x.png",
        media_type_str := some "Gif" }).media_type = none :=
  ⟨claim9_mediatype_roundtrip.1 MediaType.Image,
   claim9_mediatype_roundtrip.2.1 "Gif" (by decide) (by decide),
   claim9_mediatype_roundtrip.2.2
     { id := 1, name := "n", subject := "s", body := "b", timestamp := 0,
       media_url := some "/uploads/images/x.png", media_type_str := some "Gif" }
     "Gif" rfl (by decide) (by decide)⟩

/-! ### C2: feed order -/

/-- Timestamp-descending order with ties in ascending-id (scan) order,
on rows. -/
def rowLe (a b : Row) : Prop :=
  b.timestamp < a.timestamp ∨ (a.timestamp = b.timestamp ∧ a.id < b.id)

theorem insertTsDesc_perm (r : Row) : ∀ l : List Row, (insertTsDesc r l).Perm (r :: l) := by
  intro l
  induction l with
  | nil => rfl
  | cons x xs ih =>
    rw [insertTsDesc]
    split
    · exact ((ih.cons x).trans (List.Perm.swap r x xs))
    · rfl

theorem mem_insertTsDesc {y r : Row} {l : List Row} (h : y ∈ insertTsDesc r l) :
    y = r ∨ y ∈ l := by
  have := (insertTsDesc_perm r l).mem_iff.mp h
  simpa using this

theorem insertTsDesc_pairwise {r : Row} : ∀ {l : List Row}, l.Pairwise rowLe →
    (∀ x ∈ l, x.id < r.id) → (insertTsDesc r l).Pairwise rowLe := by
  intro l
  induction l with
  | nil => intro _ _; exact List.pairwise_singleton rowLe r
  | cons x xs ih =>
    intro hp hid
    rw [List.pairwise_cons] at hp
    rw [insertTsDesc]
    split
    · rename_i hts
      rw [List.pairwise_cons]
      constructor
      · intro y hy
        rcases mem_insertTsDesc hy with rfl | hy
        · rcases lt_or_eq_of_le hts with hlt | heq
          · exact Or.inl hlt
          · exact Or.inr ⟨heq.symm, hid x (by simp)⟩
        · exact hp.1 y hy
      · exact ih hp.2 (fun z hz => hid z (List.mem_cons_of_mem x hz))
    · rename_i hts
      push_neg at hts
      rw [List.pairwise_cons]
      constructor
      · intro y hy
        rcases List.mem_cons.mp hy with rfl | hy
        · exact Or.inl hts
        · have := hp.1 y hy
          rcases this with hlt | ⟨heq, _⟩
          · exact Or.inl (hlt.trans hts)
          · exact Or.inl (heq ▸ hts)
      · exact List.pairwise_cons.mpr ⟨hp.1, hp.2⟩

theorem foldl_insert_perm : ∀ (rows : List Row) (acc : List Row),
    (rows.foldl (fun a r => insertTsDesc r a) acc).Perm (rows ++ acc) := by
  intro rows
  induction rows with
  | nil => intro acc; simp
  | cons r rows ih =>
    intro acc
    rw [List.foldl_cons, List.cons_append]
    have h1 := ih (insertTsDesc r acc)
    have h2 : (rows ++ insertTsDesc r acc).Perm (rows ++ (r :: acc)) :=
      List.Perm.append_left rows (insertTsDesc_perm r acc)
    have h3 : (rows ++ (r :: acc)).Perm (r :: (rows ++ acc)) := List.perm_middle
    exact (h1.trans h2).trans h3

theorem foldl_insert_pairwise : ∀ (rows : List Row) (acc : List Row),
    rows.Pairwise (fun a b => a.id < b.id) → acc.Pairwise rowLe →
    (∀ x ∈ acc, ∀ s ∈ rows, x.id < s.id) →
    (rows.foldl (fun a r => insertTsDesc r a) acc).Pairwise rowLe := by
  intro rows
  induction rows with
  | nil => intro acc _ hacc _; exact hacc
  | cons r rows ih =>
    intro acc hrows hacc hcross
    rw [List.pairwise_cons] at hrows
    rw [List.foldl_cons]
    apply ih _ hrows.2
    · exact insertTsDesc_pairwise hacc (fun x hx => hcross x hx r (by simp))
    · intro x hx s hs
      rcases mem_insertTsDesc hx with rfl | hx
      · exact hrows.1 s hs
      · exact hcross x hx s (List.mem_cons_of_mem r hs)

theorem orderByTsDesc_perm (rows : List Row) : (orderByTsDesc rows).Perm rows := by
  have := foldl_insert_perm rows []
  rw [List.append_nil] at this
  exact this

/-- C2 (amended): the feed read returns every persisted post ordered by
timestamp descending, but the SQL query (`ORDER BY timestamp DESC`,
with no secondary key) leaves ties in table-scan order, i.e. ascending
id, not descending; and with zero posts the feed renders the literal
"No posts yet." placeholder. -/
theorem claim2_feed_order (rows : List Row)
    (hids : rows.Pairwise (fun a b => a.id < b.id)) :
    ((load_posts_from_db rows).Perm (rows.map postOfRow)) ∧
    (load_posts_from_db rows).Pairwise
      (fun a b => b.timestamp < a.timestamp ∨
        (a.timestamp = b.timestamp ∧ a.id < b.id)) ∧
    homepage_threads [] = "<p>No posts yet.</p>" := by
  refine ⟨?_, ?_, rfl⟩
  · exact List.Perm.map postOfRow (orderByTsDesc_perm rows)
  · unfold load_posts_from_db
    rw [List.pairwise_map]
    exact foldl_insert_pairwise rows [] hids List.Pairwise.nil (by simp)

/-- C2 as stated is false: with two rows sharing a timestamp, the feed
returns them in ascending-id order, so the claimed descending-id tie
break fails on this concrete store state. -/
theorem claim2_counterexample :
    ¬ (load_posts_from_db
      [{ id := 1, name := "a", subject := "s", body := "b", timestamp := 5,
         media_url := none, media_type_str := none },
       { id := 2, name := "c", subject := "t", body := "d", timestamp := 5,
         media_url := none, media_type_str := none }]).Pairwise
      (fun a b => b.timestamp < a.timestamp ∨
        (a.timestamp = b.timestamp ∧ b.id < a.id)) := by
  decide

theorem claim2_feed_order_witness :
    ([{ id := 1, name := "a", subject := "s", body := "b", timestamp := (5 : Int),
        media_url := none, media_type_str := none },
      { id := 2, name := "c", subject := "t", body := "d", timestamp := 3,
        media_url := none, media_type_str := none }] : List Row).Pairwise
      (fun a b => a.id < b.id) ∧
    (load_posts_from_db
      [{ id := 1, name := "a", subject := "s", body := "b", timestamp := 5,
         media_url := none, media_type_str := none },
       { id := 2, name := "c", subject := "t", body := "d", timestamp := 3,
         media_url := none, media_type_str := none }]).Pairwise
      (fun a b => b.timestamp < a.timestamp ∨
        (a.timestamp = b.timestamp ∧ a.id < b.id)) :=
  ⟨by decide,
   (claim2_feed_order
     [{ id := 1, name := "a", subject := "s", body := "b", timestamp := 5,
        media_url := none, media_type_str := none },
      { id := 2, name := "c", subject := "t", body := "d", timestamp := 3,
        media_url := none, media_type_str := none }] (by decide)).2.1⟩

/-! ### Multipart loop lemmas -/

/-- A field that reaches the file-storage branch: a `file` field with a
non-whitespace declared filename. -/
def activeFile (g : MPField) : Bool :=
  g.fname = some "file" &&
    (match g.filename with
     | some fn => !(strTrim fn = "")
     | none => false)

/-- The accumulator update performed by a field that does not reach the
file-storage branch: only the text buffers can change. -/
def skipAcc (g : MPField) (a : Acc) : Acc :=
  match g.fname with
  | none => a
  | some n =>
    if n = "name" then { a with name := a.name ++ g.text }
    else if n = "subject" then { a with subject := a.subject ++ g.text }
    else if n = "body" then { a with body := a.body ++ g.text }
    else a

theorem skipAcc_fs (g : MPField) (a : Acc) : (skipAcc g a).fs = a.fs := by
  cases hg : g.fname with
  | none => simp [skipAcc, hg]
  | some n => simp only [skipAcc, hg]; split_ifs <;> rfl

theorem skipAcc_k (g : MPField) (a : Acc) : (skipAcc g a).k = a.k := by
  cases hg : g.fname with
  | none => simp [skipAcc, hg]
  | some n => simp only [skipAcc, hg]; split_ifs <;> rfl

theorem skipAcc_mu (g : MPField) (a : Acc) : (skipAcc g a).media_url = a.media_url := by
  cases hg : g.fname with
  | none => simp [skipAcc, hg]
  | some n => simp only [skipAcc, hg]; split_ifs <;> rfl

theorem skipAcc_mt (g : MPField) (a : Acc) : (skipAcc g a).media_type = a.media_type := by
  cases hg : g.fname with
  | none => simp [skipAcc, hg]
  | some n => simp only [skipAcc, hg]; split_ifs <;> rfl

/-- Processing a non-file field (or a file field without a usable
filename) performs exactly the `skipAcc` update: the filesystem, the
uuid counter and the media fields are untouched. -/
theorem proc_skip_one {vi : Bytes → Bool} {u : Nat → String} {g : MPField}
    {l : List MPField} {a : Acc} (h : activeFile g = false) :
    procFields vi u (g :: l) a = procFields vi u l (skipAcc g a) := by
  cases hf : g.fname with
  | none => simp [procFields, skipAcc, hf]
  | some n =>
    by_cases h1 : n = "name"
    · simp [procFields, skipAcc, hf, h1]
    by_cases h2 : n = "subject"
    · simp [procFields, skipAcc, hf, h1, h2]
    by_cases h3 : n = "body"
    · simp [procFields, skipAcc, hf, h1, h2, h3]
    by_cases h4 : n = "file"
    case neg => simp [procFields, skipAcc, hf, h1, h2, h3, h4]
    subst h4
    rw [activeFile, hf] at h
    simp only [Bool.and_eq_false_iff] at h
    rcases h with h | h
    · exact absurd h (by simp)
    · cases hfn : g.filename with
      | none => simp [procFields, skipAcc, hf, h1, h2, h3, hfn]
      | some fn =>
        rw [hfn] at h
        simp only [Bool.not_eq_false'] at h
        have htr : strTrim fn = "" := by
          revert h; simp
        simp [procFields, skipAcc, hf, h1, h2, h3, hfn, htr]

/-- The accumulated `skipAcc` updates over a run of fields. -/
def skipManyAcc (pre : List MPField) (a : Acc) : Acc :=
  pre.foldl (fun a g => skipAcc g a) a

theorem skipManyAcc_fs : ∀ (pre : List MPField) (a : Acc),
    (skipManyAcc pre a).fs = a.fs := by
  intro pre
  induction pre with
  | nil => intro a; rfl
  | cons g pre ih =>
    intro a
    show (skipManyAcc pre (skipAcc g a)).fs = a.fs
    rw [ih, skipAcc_fs]

theorem skipManyAcc_k : ∀ (pre : List MPField) (a : Acc),
    (skipManyAcc pre a).k = a.k := by
  intro pre
  induction pre with
  | nil => intro a; rfl
  | cons g pre ih =>
    intro a
    show (skipManyAcc pre (skipAcc g a)).k = a.k
    rw [ih, skipAcc_k]

theorem skipManyAcc_mu : ∀ (pre : List MPField) (a : Acc),
    (skipManyAcc pre a).media_url = a.media_url := by
  intro pre
  induction pre with
  | nil => intro a; rfl
  | cons g pre ih =>
    intro a
    show (skipManyAcc pre (skipAcc g a)).media_url = a.media_url
    rw [ih, skipAcc_mu]

theorem skipManyAcc_mt : ∀ (pre : List MPField) (a : Acc),
    (skipManyAcc pre a).media_type = a.media_type := by
  intro pre
  induction pre with
  | nil => intro a; rfl
  | cons g pre ih =>
    intro a
    show (skipManyAcc pre (skipAcc g a)).media_type = a.media_type
    rw [ih, skipAcc_mt]

/-- Iterated version of `proc_skip_one` over a run of fields without an
active file. -/
theorem proc_skip_many {vi : Bytes → Bool} {u : Nat → String} :
    ∀ {pre : List MPField} {l : List MPField} {a : Acc},
      (∀ g ∈ pre, activeFile g = false) →
      procFields vi u (pre ++ l) a = procFields vi u l (skipManyAcc pre a) := by
  intro pre
  induction pre with
  | nil => intro l a _; rfl
  | cons g pre ih =>
    intro l a h
    rw [List.cons_append, proc_skip_one (h g (by simp)),
      ih (fun g' hg' => h g' (List.mem_cons_of_mem g hg'))]
    rfl

/-- An active file field whose extension is classified outside the
`image` and `video` kinds aborts immediately with no filesystem
change (`src/main.rs` lines 436-438). -/
theorem proc_file_bad_type {vi : Bytes → Bool} {u : Nat → String} {f : MPField}
    {l : List MPField} {a : Acc} {fn : String}
    (hn : f.fname = some "file") (hfn : f.filename = some fn) (ht : strTrim fn ≠ "")
    (hm1 : (mimeOfName fn).1 ≠ "image") (hm2 : (mimeOfName fn).1 ≠ "video") :
    procFields vi u (f :: l) a = FieldsOut.early "Unsupported media type" a.fs := by
  simp +decide [procFields, hn, hfn, ht, hm1, hm2]

/-- An active image-kind file field with a subtype outside the
allow-list aborts immediately with no filesystem change
(`src/main.rs` lines 392-394). -/
theorem proc_file_bad_image {vi : Bytes → Bool} {u : Nat → String} {f : MPField}
    {l : List MPField} {a : Acc} {fn : String}
    (hn : f.fname = some "file") (hfn : f.filename = some fn) (ht : strTrim fn ≠ "")
    (hm : (mimeOfName fn).1 = "image") (hsub : imageSubOk (mimeOfName fn).2 = false) :
    procFields vi u (f :: l) a = FieldsOut.early "Unsupported image format" a.fs := by
  simp +decide [procFields, hn, hfn, ht, hm, hsub]

/-- An active video-kind file field with a subtype other than `mp4`
aborts immediately with no filesystem change (`src/main.rs` lines
417-419). -/
theorem proc_file_bad_video {vi : Bytes → Bool} {u : Nat → String} {f : MPField}
    {l : List MPField} {a : Acc} {fn : String}
    (hn : f.fname = some "file") (hfn : f.filename = some fn) (ht : strTrim fn ≠ "")
    (hm : (mimeOfName fn).1 = "video") (hsub : (mimeOfName fn).2 ≠ "mp4") :
    procFields vi u (f :: l) a = FieldsOut.early "Unsupported video format" a.fs := by
  have hm1 : (mimeOfName fn).1 ≠ "image" := by rw [hm]; decide
  simp +decide [procFields, hn, hfn, ht, hm, hm1, hsub]

/-- An active allow-listed image file whose bytes do not decode writes
the file, then deletes it and aborts (`src/main.rs` lines 408-411). -/
theorem proc_file_invalid_image {vi : Bytes → Bool} {u : Nat → String} {f : MPField}
    {l : List MPField} {a : Acc} {fn : String}
    (hn : f.fname = some "file") (hfn : f.filename = some fn) (ht : strTrim fn ≠ "")
    (hm : (mimeOfName fn).1 = "image") (hsub : imageSubOk (mimeOfName fn).2 = true)
    (hv : vi f.bytes = false) :
    procFields vi u (f :: l) a = FieldsOut.early "Invalid image file"
      (removeFile
        (writeFile a.fs (IMAGE_UPLOAD_DIR ++ (u a.k ++ "." ++ (mimeOfName fn).2)) f.bytes)
        (IMAGE_UPLOAD_DIR ++ (u a.k ++ "." ++ (mimeOfName fn).2))) := by
  simp +decide [procFields, hn, hfn, ht, hm, hsub, hv]

/-- An active allow-listed image file whose bytes decode is stored and
the media fields are updated (`src/main.rs` lines 396-414). -/
theorem proc_file_image_ok {vi : Bytes → Bool} {u : Nat → String} {f : MPField}
    {l : List MPField} {a : Acc} {fn : String}
    (hn : f.fname = some "file") (hfn : f.filename = some fn) (ht : strTrim fn ≠ "")
    (hm : (mimeOfName fn).1 = "image") (hsub : imageSubOk (mimeOfName fn).2 = true)
    (hv : vi f.bytes = true) :
    procFields vi u (f :: l) a = procFields vi u l
      { a with
        media_url := some ("/uploads/images/" ++ (u a.k ++ "." ++ (mimeOfName fn).2))
        media_type := some MediaType.Image
        fs := writeFile a.fs (IMAGE_UPLOAD_DIR ++ (u a.k ++ "." ++ (mimeOfName fn).2)) f.bytes
        k := a.k + 1 } := by
  simp +decide [procFields, hn, hfn, ht, hm, hsub, hv]

/-- An active `mp4` video file is stored and the media fields are
updated (`src/main.rs` lines 421-434). -/
theorem proc_file_video_ok {vi : Bytes → Bool} {u : Nat → String} {f : MPField}
    {l : List MPField} {a : Acc} {fn : String}
    (hn : f.fname = some "file") (hfn : f.filename = some fn) (ht : strTrim fn ≠ "")
    (hm : (mimeOfName fn).1 = "video") (hsub : (mimeOfName fn).2 = "mp4") :
    procFields vi u (f :: l) a = procFields vi u l
      { a with
        media_url := some ("/uploads/videos/" ++ (u a.k ++ "." ++ (mimeOfName fn).2))
        media_type := some MediaType.Video
        fs := writeFile a.fs (VIDEO_UPLOAD_DIR ++ (u a.k ++ "." ++ (mimeOfName fn).2)) f.bytes
        k := a.k + 1 } := by
  have hm1 : (mimeOfName fn).1 ≠ "image" := by rw [hm]; decide
  simp +decide [procFields, hn, hfn, ht, hm, hm1, hsub]

/-- Writing a fresh file and then removing it restores the original
directory contents. -/
theorem remove_write_fresh {fs : FSState} {p : String} {b : Bytes}
    (h : ∀ e ∈ fs, e.1 ≠ p) : removeFile (writeFile fs p b) p = fs := by
  unfold removeFile writeFile
  rw [List.filter_append]
  have h1 : fs.filter (fun e => e.1 ≠ p) = fs :=
    List.filter_eq_self.mpr (fun e he => by simpa using h e he)
  have h2 : ([(p, b)] : FSState).filter (fun e => e.1 ≠ p) = [] := by simp
  rw [h1, h2, List.append_nil]

/-! ### C3 and C4: file rejection behavior -/

/-- C3: a submission whose file field has an allow-listed image
extension but bytes that do not decode as an image is rejected with a
400 response, no row is inserted (the store is unchanged), and the
just-written file is deleted again, so the upload directories are
exactly as before the request. -/
theorem claim3_invalid_image (vi : Bytes → Bool) (u : Nat → String) (now : Int)
    (pre : List MPField) (f : MPField) (rest : List MPField)
    (st : Store) (fs : FSState) {fn : String}
    (hpre : ∀ g ∈ pre, activeFile g = false)
    (hn : f.fname = some "file") (hfn : f.filename = some fn) (ht : strTrim fn ≠ "")
    (hm : (mimeOfName fn).1 = "image") (hsub : imageSubOk (mimeOfName fn).2 = true)
    (hv : vi f.bytes = false)
    (hfresh : ∀ e ∈ fs, e.1 ≠ IMAGE_UPLOAD_DIR ++ (u 0 ++ "." ++ (mimeOfName fn).2)) :
    create_post vi u now (pre ++ f :: rest) st fs =
      (HResp.badRequest "Invalid image file", st, fs) ∧
    (HResp.badRequest "Invalid image file").status = 400 := by
  have heq := @proc_skip_many vi u pre (f :: rest) (initAcc fs) hpre
  have hstep := @proc_file_invalid_image vi u f rest (skipManyAcc pre (initAcc fs)) fn
    hn hfn ht hm hsub hv
  refine ⟨?_, rfl⟩
  unfold create_post
  rw [heq, hstep, skipManyAcc_fs, skipManyAcc_k]
  have hk0 : (initAcc fs).k = 0 := rfl
  have hfs0 : (initAcc fs).fs = fs := rfl
  rw [hk0, hfs0, remove_write_fresh hfresh]

theorem claim3_invalid_image_witness :
    create_post (fun _ => false) (fun _ => "tok") 7
      [{ fname := some "name", filename := none, text := "anon", bytes := [] },
       { fname := some "subject", filename := none, text := "s", bytes := [] },
       { fname := some "body", filename := none, text := "b", bytes := [] },
       { fname := some "file", filename := some "payload.png", text := "",
         bytes := [1, 2, 3] }]
      { rows := [], nextId := 1 } [] =
      (HResp.badRequest "Invalid image file", { rows := [], nextId := 1 }, []) ∧
    (HResp.badRequest "Invalid image file").status = 400 :=
  claim3_invalid_image (fun _ => false) (fun _ => "tok") 7
    [{ fname := some "name", filename := none, text := "anon", bytes := [] },
     { fname := some "subject", filename := none, text := "s", bytes := [] },
     { fname := some "body", filename := none, text := "b", bytes := [] }]
    { fname := some "file", filename := some "payload.png", text := "", bytes := [1, 2, 3] }
    [] { rows := [], nextId := 1 } []
    (by decide) rfl rfl (by decide) (by decide) (by decide) rfl (by decide)

/-- C4: a submission whose file field's declared filename classifies as
neither image kind nor video kind (e.g. `.exe`) is rejected with 400
before any byte is written: the upload directories and the store are
exactly as before the request. -/
theorem claim4_unsupported_kind (vi : Bytes → Bool) (u : Nat → String) (now : Int)
    (pre : List MPField) (f : MPField) (rest : List MPField)
    (st : Store) (fs : FSState) {fn : String}
    (hpre : ∀ g ∈ pre, activeFile g = false)
    (hn : f.fname = some "file") (hfn : f.filename = some fn) (ht : strTrim fn ≠ "")
    (hm1 : (mimeOfName fn).1 ≠ "image") (hm2 : (mimeOfName fn).1 ≠ "video") :
    create_post vi u now (pre ++ f :: rest) st fs =
      (HResp.badRequest "Unsupported media type", st, fs) ∧
    (HResp.badRequest "Unsupported media type").status = 400 := by
  have heq := @proc_skip_many vi u pre (f :: rest) (initAcc fs) hpre
  have hstep := @proc_file_bad_type vi u f rest (skipManyAcc pre (initAcc fs)) fn
    hn hfn ht hm1 hm2
  refine ⟨?_, rfl⟩
  unfold create_post
  rw [heq, hstep, skipManyAcc_fs]
  rfl

theorem claim4_unsupported_kind_witness :
    create_post (fun _ => true) (fun _ => "tok") 7
      ([{ fname := some "name", filename := none, text := "anon", bytes := [] }] ++
        { fname := some "file", filename := some "evil.exe", text := "",
          bytes := [77, 90] } :: [])
      { rows := [], nextId := 1 } [] =
      (HResp.badRequest "Unsupported media type", { rows := [], nextId := 1 }, []) ∧
    (HResp.badRequest "Unsupported media type").status = 400 :=
  claim4_unsupported_kind (fun _ => true) (fun _ => "tok") 7
    [{ fname := some "name", filename := none, text := "anon", bytes := [] }]
    { fname := some "file", filename := some "evil.exe", text := "", bytes := [77, 90] }
    [] { rows := [], nextId := 1 } []
    (by decide) rfl rfl (by decide) (by decide) (by decide)

/-! ### C6: empty trimmed text fields -/

/-- C6: when, after all multipart fields are consumed, the trimmed
name, subject or body is empty, the request fails with the 400
validation error page, the store is unchanged (no post persisted), and
the filesystem is exactly the state left by field decoding — a file
stored during decoding is not retroactively deleted. -/
theorem claim6_empty_text (vi : Bytes → Bool) (u : Nat → String) (now : Int)
    (fields : List MPField) (st : Store) (fs : FSState) (a : Acc)
    (hdone : procFields vi u fields (initAcc fs) = FieldsOut.done a)
    (hempty : strTrim a.name = "" ∨ strTrim a.subject = "" ∨ strTrim a.body = "") :
    create_post vi u now fields st fs =
      (HResp.badRequest
        (render_error_page "Bad Request" "Name, Subject, and Comment cannot be empty"),
       st, a.fs) ∧
    (HResp.badRequest
      (render_error_page "Bad Request" "Name, Subject, and Comment cannot be empty")).status
      = 400 ∧
    (∀ e ∈ a.fs, e ∈ (create_post vi u now fields st fs).2.2) := by
  have h1 : create_post vi u now fields st fs =
      (HResp.badRequest
        (render_error_page "Bad Request" "Name, Subject, and Comment cannot be empty"),
       st, a.fs) := by
    unfold create_post
    simp only [hdone]
    rw [if_pos hempty]
  exact ⟨h1, rfl, fun e he => by rw [h1]; exact he⟩

theorem claim6_empty_text_witness :
    create_post (fun _ => true) (fun _ => "tok") 7
      [{ fname := some "subject", filename := none, text := "s", bytes := [] },
       { fname := some "body", filename := none, text := "b", bytes := [] },
       { fname := some "file", filename := some "cat.png", text := "",
         bytes := [9, 9] }]
      { rows := [], nextId := 1 } [] =
      (HResp.badRequest
        (render_error_page "Bad Request" "Name, Subject, and Comment cannot be empty"),
       { rows := [], nextId := 1 },
       [("./uploads/images/tok.png", [9, 9])]) ∧
    (HResp.badRequest
      (render_error_page "Bad Request" "Name, Subject, and Comment cannot be empty")).status
      = 400 :=
  ⟨(claim6_empty_text (fun _ => true) (fun _ => "tok") 7
      [{ fname := some "subject", filename := none, text := "s", bytes := [] },
       { fname := some "body", filename := none, text := "b", bytes := [] },
       { fname := some "file", filename := some "cat.png", text := "",
         bytes := [9, 9] }]
      { rows := [], nextId := 1 } []
      { name := "", subject := "s", body := "b",
        media_url := some "/uploads/images/tok.png",
        media_type := some MediaType.Image,
        fs := [("./uploads/images/tok.png", [9, 9])], k := 1 }
      (by decide) (by decide)).1,
   rfl⟩

/-! ### C7: media_url present iff media_type present -/

/-- `from_str` inverts `to_str` through an `Option`. -/
theorem from_str_to_str_option (o : Option MediaType) :
    (o.map MediaType.to_str).bind MediaType.from_str = o := by
  cases o with
  | none => rfl
  | some m => cases m <;> rfl

/-- The multipart loop preserves the `media_url`/`media_type`
togetherness invariant. -/
theorem proc_inv {vi : Bytes → Bool} {u : Nat → String} :
    ∀ {l : List MPField} {a a' : Acc},
      procFields vi u l a = FieldsOut.done a' →
      a.media_url.isSome = a.media_type.isSome →
      a'.media_url.isSome = a'.media_type.isSome := by
  intro l
  induction l with
  | nil =>
    intro a a' h hinv
    rw [procFields] at h
    cases h
    exact hinv
  | cons f rest ih =>
    intro a a' h hinv
    cases hf : f.fname with
    | none => rw [procFields] at h; simp only [hf] at h; exact ih h hinv
    | some n =>
      rw [procFields] at h
      simp only [hf] at h
      by_cases h1 : n = "name"
      · rw [if_pos h1] at h; exact ih h hinv
      rw [if_neg h1] at h
      by_cases h2 : n = "subject"
      · rw [if_pos h2] at h; exact ih h hinv
      rw [if_neg h2] at h
      by_cases h3 : n = "body"
      · rw [if_pos h3] at h; exact ih h hinv
      rw [if_neg h3] at h
      by_cases h4 : n = "file"
      case neg => rw [if_neg h4] at h; exact ih h hinv
      rw [if_pos h4] at h
      cases hfn : f.filename with
      | none => simp only [hfn] at h; exact ih h hinv
      | some fn =>
        simp only [hfn] at h
        by_cases ht : strTrim fn = ""
        · rw [if_pos ht] at h; exact ih h hinv
        rw [if_neg ht] at h
        by_cases hm : (mimeOfName fn).1 = "image"
        · rw [if_pos hm] at h
          by_cases hsub : imageSubOk (mimeOfName fn).2 = true
          · rw [if_pos hsub] at h
            by_cases hv : vi f.bytes = true
            · rw [if_pos hv] at h; exact ih h (by simp)
            · rw [if_neg hv] at h; exact FieldsOut.noConfusion h
          · rw [if_neg hsub] at h; exact FieldsOut.noConfusion h
        rw [if_neg hm] at h
        by_cases hvid : (mimeOfName fn).1 = "video"
        · rw [if_pos hvid] at h
          by_cases hmp4 : (mimeOfName fn).2 = "mp4"
          · rw [if_pos hmp4] at h; exact ih h (by simp)
          · rw [if_neg hmp4] at h; exact FieldsOut.noConfusion h
        · rw [if_neg hvid] at h; exact FieldsOut.noConfusion h

/-- C7: for every post the coordinator persists, the row read back from
the store satisfies `media_url.isSome = media_type.isSome`; and the
store read path preserves the invariant for any post that satisfies it
when written. -/
theorem claim7_media_invariant (vi : Bytes → Bool) (u : Nat → String) (now : Int)
    (fields : List MPField) (st : Store) (fs : FSState) (loc : String)
    (st' : Store) (fs' : FSState)
    (hsucc : create_post vi u now fields st fs = (HResp.seeOther loc, st', fs')) :
    (∃ r : Row, st'.rows = st.rows ++ [r] ∧
      (postOfRow r).media_url.isSome = (postOfRow r).media_type.isSome) ∧
    (∀ (i : Int) (p : Post), p.media_url.isSome = p.media_type.isSome →
      (postOfRow (rowOfPost i p)).media_url.isSome =
        (postOfRow (rowOfPost i p)).media_type.isSome) := by
  constructor
  · unfold create_post at hsucc
    cases hproc : procFields vi u fields (initAcc fs) with
    | early msg efs =>
      simp only [hproc] at hsucc
      exact absurd (congrArg Prod.fst hsucc) (by simp)
    | done a =>
      simp only [hproc] at hsucc
      by_cases hemp : strTrim a.name = "" ∨ strTrim a.subject = "" ∨ strTrim a.body = ""
      · rw [if_pos hemp] at hsucc
        exact absurd (congrArg Prod.fst hsucc) (by simp)
      · rw [if_neg hemp] at hsucc
        have hst : st' = insert_post st
            { id := 0, name := strTrim a.name, subject := strTrim a.subject,
              body := strTrim a.body, timestamp := now,
              media_url := a.media_url, media_type := a.media_type } := by
          have := congrArg (fun q => q.2.1) hsucc
          exact this.symm
        refine ⟨rowOfPost st.nextId
          { id := 0, name := strTrim a.name, subject := strTrim a.subject,
            body := strTrim a.body, timestamp := now,
            media_url := a.media_url, media_type := a.media_type }, ?_, ?_⟩
        · rw [hst]; rfl
        · show a.media_url.isSome =
            ((a.media_type.map MediaType.to_str).bind MediaType.from_str).isSome
          rw [from_str_to_str_option]
          exact proc_inv hproc rfl
  · intro i p hp
    show p.media_url.isSome =
      ((p.media_type.map MediaType.to_str).bind MediaType.from_str).isSome
    rw [from_str_to_str_option]
    exact hp

theorem claim7_media_invariant_witness :
    ∃ r : Row, ({ rows := [rowOfPost 1
        { id := 0, name := "anon", subject := "s", body := "b", timestamp := 7,
          media_url := none, media_type := none }], nextId := 2 } : Store).rows =
        ([] : List Row) ++ [r] ∧
      (postOfRow r).media_url.isSome = (postOfRow r).media_type.isSome :=
  (claim7_media_invariant (fun _ => true) (fun _ => "tok") 7
    [{ fname := some "name", filename := none, text := "anon", bytes := [] },
     { fname := some "subject", filename := none, text := "s", bytes := [] },
     { fname := some "body", filename := none, text := "b", bytes := [] }]
    { rows := [], nextId := 1 } [] "/"
    { rows := [rowOfPost 1
        { id := 0, name := "anon", subject := "s", body := "b", timestamp := 7,
          media_url := none, media_type := none }], nextId := 2 } []
    (by decide)).1

/-! ### C5, C8, C10: accepted uploads -/

/-- The upload directory for an accepted top-level kind. -/
def kindDir (t : String) : String :=
  if t = "image" then IMAGE_UPLOAD_DIR else VIDEO_UPLOAD_DIR

/-- The public URL root for an accepted top-level kind. -/
def kindUrlDir (t : String) : String :=
  if t = "image" then "/uploads/images/" else "/uploads/videos/"

/-- The `MediaType` recorded for an accepted top-level kind. -/
def kindMT (t : String) : MediaType :=
  if t = "image" then MediaType.Image else MediaType.Video

/-- A classification outcome that the file branch accepts: an
allow-listed image subtype with decodable bytes, or an `mp4` video. -/
def acceptedFile (vi : Bytes → Bool) (f : MPField) (fn : String) : Prop :=
  ((mimeOfName fn).1 = "image" ∧ imageSubOk (mimeOfName fn).2 = true ∧
    vi f.bytes = true) ∨
  ((mimeOfName fn).1 = "video" ∧ (mimeOfName fn).2 = "mp4")

/-- The accumulator update performed by an accepted file field: the
bytes are written under `<kind dir>/<token>.<subtype>` and the media
fields are set to the corresponding URL and type. -/
def accFile (u : Nat → String) (f : MPField) (fn : String) (a : Acc) : Acc :=
  { a with
    media_url := some (kindUrlDir (mimeOfName fn).1 ++
      (u a.k ++ "." ++ (mimeOfName fn).2))
    media_type := some (kindMT (mimeOfName fn).1)
    fs := writeFile a.fs
      (kindDir (mimeOfName fn).1 ++ (u a.k ++ "." ++ (mimeOfName fn).2)) f.bytes
    k := a.k + 1 }

/-- Uniform step lemma for an accepted file field. -/
theorem proc_file_accepted {vi : Bytes → Bool} {u : Nat → String} {f : MPField}
    {l : List MPField} {a : Acc} {fn : String}
    (hn : f.fname = some "file") (hfn : f.filename = some fn) (ht : strTrim fn ≠ "")
    (hacc : acceptedFile vi f fn) :
    procFields vi u (f :: l) a = procFields vi u l (accFile u f fn a) := by
  rcases hacc with ⟨hm, hsub, hv⟩ | ⟨hm, hsub⟩
  · rw [proc_file_image_ok hn hfn ht hm hsub hv]
    rw [accFile, kindUrlDir, kindDir, kindMT, hm]
    rw [if_pos rfl, if_pos rfl, if_pos rfl]
  · rw [proc_file_video_ok hn hfn ht hm hsub]
    rw [accFile, kindUrlDir, kindDir, kindMT, hm]
    rw [if_neg (by decide), if_neg (by decide), if_neg (by decide)]

/-- Fields without an active file run to completion with only text
updates. -/
theorem proc_skip_all {vi : Bytes → Bool} {u : Nat → String} :
    ∀ {pre : List MPField} {a : Acc},
      (∀ g ∈ pre, activeFile g = false) →
      procFields vi u pre a = FieldsOut.done (skipManyAcc pre a) := by
  intro pre
  induction pre with
  | nil => intro a _; rfl
  | cons g pre ih =>
    intro a h
    rw [proc_skip_one (h g (by simp)),
      ih (fun g' hg' => h g' (List.mem_cons_of_mem g hg'))]
    rfl

/-- C5: classification accepts exactly the image subtypes
`jpeg, jpg, png, gif, webp` and the video subtype `mp4`: the boolean
check equals that five-element membership, a non-allow-listed image
subtype or a non-`mp4` video subtype yields a 400
unsupported-format response with store and filesystem unchanged, and
an allow-listed subtype proceeds past classification with the matching
media type recorded. -/
theorem claim5_allowlist (vi : Bytes → Bool) (u : Nat → String) (now : Int)
    (pre : List MPField) (f : MPField) (rest : List MPField)
    (st : Store) (fs : FSState) (fn : String)
    (hpre : ∀ g ∈ pre, activeFile g = false)
    (hn : f.fname = some "file") (hfn : f.filename = some fn)
    (ht : strTrim fn ≠ "") :
    (∀ s : String, imageSubOk s = true ↔
      (s = "jpeg" ∨ s = "jpg" ∨ s = "png" ∨ s = "gif" ∨ s = "webp")) ∧
    ((mimeOfName fn).1 = "image" → imageSubOk (mimeOfName fn).2 = false →
      create_post vi u now (pre ++ f :: rest) st fs =
        (HResp.badRequest "Unsupported image format", st, fs)) ∧
    ((mimeOfName fn).1 = "video" → (mimeOfName fn).2 ≠ "mp4" →
      create_post vi u now (pre ++ f :: rest) st fs =
        (HResp.badRequest "Unsupported video format", st, fs)) ∧
    ((mimeOfName fn).1 = "image" → imageSubOk (mimeOfName fn).2 = true →
      vi f.bytes = true →
      ∀ a : Acc, ∃ a' : Acc,
        procFields vi u (f :: rest) a = procFields vi u rest a' ∧
        a'.media_type = some MediaType.Image) ∧
    ((mimeOfName fn).1 = "video" → (mimeOfName fn).2 = "mp4" →
      ∀ a : Acc, ∃ a' : Acc,
        procFields vi u (f :: rest) a = procFields vi u rest a' ∧
        a'.media_type = some MediaType.Video) := by
  refine ⟨?_, ?_, ?_, ?_, ?_⟩
  · intro s
    simp [imageSubOk]
  · intro hm hsub
    have heq := @proc_skip_many vi u pre (f :: rest) (initAcc fs) hpre
    unfold create_post
    rw [heq, proc_file_bad_image hn hfn ht hm hsub, skipManyAcc_fs]
    rfl
  · intro hm hsub
    have heq := @proc_skip_many vi u pre (f :: rest) (initAcc fs) hpre
    unfold create_post
    rw [heq, proc_file_bad_video hn hfn ht hm hsub, skipManyAcc_fs]
    rfl
  · intro hm hsub hv a
    exact ⟨_, proc_file_image_ok hn hfn ht hm hsub hv, rfl⟩
  · intro hm hsub a
    exact ⟨_, proc_file_video_ok hn hfn ht hm hsub, rfl⟩

theorem claim5_allowlist_witness :
    imageSubOk "webp" = true ∧
    create_post (fun _ => true) (fun _ => "tok") 7
      ([{ fname := some "name", filename := none, text := "anon", bytes := [] }] ++
        { fname := some "file", filename := some "pic.svg", text := "",
          bytes := [1] } :: [])
      { rows := [], nextId := 1 } [] =
      (HResp.badRequest "Unsupported image format", { rows := [], nextId := 1 }, []) :=
  ⟨((claim5_allowlist (fun _ => true) (fun _ => "tok") 7
      [{ fname := some "name", filename := none, text := "anon", bytes := [] }]
      { fname := some "file", filename := some "pic.svg", text := "", bytes := [1] }
      [] { rows := [], nextId := 1 } [] "pic.svg"
      (by decide) rfl rfl (by decide)).1 "webp").mpr (by decide),
   (claim5_allowlist (fun _ => true) (fun _ => "tok") 7
      [{ fname := some "name", filename := none, text := "anon", bytes := [] }]
      { fname := some "file", filename := some "pic.svg", text := "", bytes := [1] }
      [] { rows := [], nextId := 1 } [] "pic.svg"
      (by decide) rfl rfl (by decide)).2.1 (by decide) (by decide)⟩

/-- C8: for an accepted upload the stored path is
`<kind dir><token>.<validated subtype>` and the recorded URL is
`/uploads/<kind dir>/<token>.<validated subtype>`, built from the
server-generated token and the subtype only; replacing the client
filename by any other filename with the same classification leaves the
whole request processing unchanged, so nothing but the validated
extension is influenced by the client-supplied filename. -/
theorem claim8_stored_name (vi : Bytes → Bool) (u : Nat → String)
    (pre : List MPField) (f : MPField) (rest : List MPField) (fs : FSState)
    (fn : String)
    (hpre : ∀ g ∈ pre, activeFile g = false)
    (hn : f.fname = some "file") (hfn : f.filename = some fn)
    (ht : strTrim fn ≠ "") (hacc : acceptedFile vi f fn) :
    ∃ a : Acc,
      procFields vi u (pre ++ f :: rest) (initAcc fs) = procFields vi u rest a ∧
      a.media_url = some (kindUrlDir (mimeOfName fn).1 ++
        (u 0 ++ "." ++ (mimeOfName fn).2)) ∧
      a.fs = fs ++ [(kindDir (mimeOfName fn).1 ++
        (u 0 ++ "." ++ (mimeOfName fn).2), f.bytes)] ∧
      (∀ fn' : String, strTrim fn' ≠ "" → mimeOfName fn' = mimeOfName fn →
        procFields vi u (pre ++ { f with filename := some fn' } :: rest) (initAcc fs) =
          procFields vi u (pre ++ f :: rest) (initAcc fs)) := by
  have heq := @proc_skip_many vi u pre (f :: rest) (initAcc fs) hpre
  have hk0 : (skipManyAcc pre (initAcc fs)).k = 0 := skipManyAcc_k pre (initAcc fs)
  have hfs0 : (skipManyAcc pre (initAcc fs)).fs = fs := skipManyAcc_fs pre (initAcc fs)
  have hstep := @proc_file_accepted vi u f rest (skipManyAcc pre (initAcc fs)) fn
    hn hfn ht hacc
  refine ⟨_, by rw [heq, hstep], ?_, ?_, ?_⟩
  · simp [accFile, hk0]
  · simp [accFile, writeFile, hk0, hfs0]
  · intro fn' ht' hmime
    have heq2 := @proc_skip_many vi u pre
      ({ f with filename := some fn' } :: rest) (initAcc fs) hpre
    have hacc' : acceptedFile vi { f with filename := some fn' } fn' := by
      unfold acceptedFile at hacc ⊢
      rw [hmime]
      simpa using hacc
    have hstep' := @proc_file_accepted vi u { f with filename := some fn' } rest
      (skipManyAcc pre (initAcc fs)) fn' (by simpa using hn) rfl ht' hacc'
    have hAccEq : accFile u { f with filename := some fn' } fn'
        (skipManyAcc pre (initAcc fs)) =
        accFile u f fn (skipManyAcc pre (initAcc fs)) := by
      unfold accFile
      rw [hmime]
    rw [heq2, hstep', heq, hstep, hAccEq]

theorem claim8_stored_name_witness :
    ∃ a : Acc,
      procFields (fun _ => true) (fun _ => "tok")
        ([] ++ { fname := some "file", filename := some "movie.mp4", text := "",
                 bytes := [0] } :: []) (initAcc []) =
        procFields (fun _ => true) (fun _ => "tok") [] a ∧
      a.media_url = some "/uploads/videos/tok.mp4" ∧
      a.fs = [("./uploads/videos/tok.mp4", [0])] ∧
      (∀ fn' : String, strTrim fn' ≠ "" →
        mimeOfName fn' = mimeOfName "movie.mp4" →
        procFields (fun _ => true) (fun _ => "tok")
          ([] ++ { fname := some "file", filename := some fn', text := "",
                   bytes := [0] } :: []) (initAcc []) =
        procFields (fun _ => true) (fun _ => "tok")
          ([] ++ { fname := some "file", filename := some "movie.mp4", text := "",
                   bytes := [0] } :: []) (initAcc [])) :=
  claim8_stored_name (fun _ => true) (fun _ => "tok") []
    { fname := some "file", filename := some "movie.mp4", text := "", bytes := [0] }
    [] [] "movie.mp4" (by decide) rfl rfl (by decide)
    (Or.inr ⟨by decide, by decide⟩)

/-- C10: in a submission with two accepted file fields, both files are
written to their upload directories (both appear in the final
directory state), but the accumulator — and hence any persisted post —
references only the last file's URL and media type; the earlier stored
file stays on disk unreferenced. -/
theorem claim10_last_file_wins (vi : Bytes → Bool) (u : Nat → String) (now : Int)
    (p1 mid p3 : List MPField) (f1 f2 : MPField) (st : Store) (fs : FSState)
    (fn1 fn2 : String)
    (hp1 : ∀ g ∈ p1, activeFile g = false)
    (hmid : ∀ g ∈ mid, activeFile g = false)
    (hp3 : ∀ g ∈ p3, activeFile g = false)
    (hn1 : f1.fname = some "file") (hfn1 : f1.filename = some fn1)
    (ht1 : strTrim fn1 ≠ "") (hacc1 : acceptedFile vi f1 fn1)
    (hn2 : f2.fname = some "file") (hfn2 : f2.filename = some fn2)
    (ht2 : strTrim fn2 ≠ "") (hacc2 : acceptedFile vi f2 fn2) :
    ∃ a : Acc,
      procFields vi u (p1 ++ f1 :: (mid ++ f2 :: p3)) (initAcc fs) =
        FieldsOut.done a ∧
      a.media_url = some (kindUrlDir (mimeOfName fn2).1 ++
        (u 1 ++ "." ++ (mimeOfName fn2).2)) ∧
      a.media_type = some (kindMT (mimeOfName fn2).1) ∧
      (kindDir (mimeOfName fn1).1 ++ (u 0 ++ "." ++ (mimeOfName fn1).2),
        f1.bytes) ∈ a.fs ∧
      (kindDir (mimeOfName fn2).1 ++ (u 1 ++ "." ++ (mimeOfName fn2).2),
        f2.bytes) ∈ a.fs ∧
      (strTrim a.name ≠ "" → strTrim a.subject ≠ "" → strTrim a.body ≠ "" →
        create_post vi u now (p1 ++ f1 :: (mid ++ f2 :: p3)) st fs =
          (HResp.seeOther "/",
           insert_post st
             { id := 0, name := strTrim a.name, subject := strTrim a.subject,
               body := strTrim a.body, timestamp := now,
               media_url := a.media_url, media_type := a.media_type },
           a.fs)) := by
  have hk1 : (skipManyAcc p1 (initAcc fs)).k = 0 := skipManyAcc_k p1 (initAcc fs)
  have hfs1 : (skipManyAcc p1 (initAcc fs)).fs = fs := skipManyAcc_fs p1 (initAcc fs)
  have hchain : procFields vi u (p1 ++ f1 :: (mid ++ f2 :: p3)) (initAcc fs) =
      FieldsOut.done (skipManyAcc p3 (accFile u f2 fn2
        (skipManyAcc mid (accFile u f1 fn1 (skipManyAcc p1 (initAcc fs)))))) := by
    rw [@proc_skip_many vi u p1 (f1 :: (mid ++ f2 :: p3)) (initAcc fs) hp1,
      @proc_file_accepted vi u f1 (mid ++ f2 :: p3)
        (skipManyAcc p1 (initAcc fs)) fn1 hn1 hfn1 ht1 hacc1,
      @proc_skip_many vi u mid (f2 :: p3)
        (accFile u f1 fn1 (skipManyAcc p1 (initAcc fs))) hmid,
      @proc_file_accepted vi u f2 p3
        (skipManyAcc mid (accFile u f1 fn1 (skipManyAcc p1 (initAcc fs)))) fn2
        hn2 hfn2 ht2 hacc2,
      proc_skip_all hp3]
  have hmidk : (skipManyAcc mid (accFile u f1 fn1 (skipManyAcc p1 (initAcc fs)))).k
      = 1 := by
    rw [skipManyAcc_k]
    show (skipManyAcc p1 (initAcc fs)).k + 1 = 1
    rw [hk1]
  have hmidfs : (skipManyAcc mid (accFile u f1 fn1 (skipManyAcc p1 (initAcc fs)))).fs
      = fs ++ [(kindDir (mimeOfName fn1).1 ++
          (u 0 ++ "." ++ (mimeOfName fn1).2), f1.bytes)] := by
    rw [skipManyAcc_fs]
    show writeFile (skipManyAcc p1 (initAcc fs)).fs
      (kindDir (mimeOfName fn1).1 ++
        (u (skipManyAcc p1 (initAcc fs)).k ++ "." ++ (mimeOfName fn1).2)) f1.bytes = _
    rw [hk1, hfs1, writeFile]
  refine ⟨_, hchain, ?_, ?_, ?_, ?_, ?_⟩
  · rw [skipManyAcc_mu]
    show some (kindUrlDir (mimeOfName fn2).1 ++
      (u (skipManyAcc mid (accFile u f1 fn1 (skipManyAcc p1 (initAcc fs)))).k ++
        "." ++ (mimeOfName fn2).2)) = _
    rw [hmidk]
  · rw [skipManyAcc_mt]
    rfl
  · rw [skipManyAcc_fs]
    show _ ∈ writeFile
      (skipManyAcc mid (accFile u f1 fn1 (skipManyAcc p1 (initAcc fs)))).fs
      (kindDir (mimeOfName fn2).1 ++
        (u (skipManyAcc mid (accFile u f1 fn1 (skipManyAcc p1 (initAcc fs)))).k ++
          "." ++ (mimeOfName fn2).2)) f2.bytes
    rw [hmidfs, writeFile]
    simp
  · rw [skipManyAcc_fs]
    show _ ∈ writeFile
      (skipManyAcc mid (accFile u f1 fn1 (skipManyAcc p1 (initAcc fs)))).fs
      (kindDir (mimeOfName fn2).1 ++
        (u (skipManyAcc mid (accFile u f1 fn1 (skipManyAcc p1 (initAcc fs)))).k ++
          "." ++ (mimeOfName fn2).2)) f2.bytes
    rw [hmidk, writeFile]
    simp
  · intro hna hsb hbd
    unfold create_post
    simp only [hchain]
    rw [if_neg (by simp [hna, hsb, hbd])]

theorem claim10_last_file_wins_witness :
    ∃ a : Acc,
      procFields (fun _ => true) (fun k => if k = 0 then "aaa" else "bbb")
        ([{ fname := some "name", filename := none, text := "anon", bytes := [] },
          { fname := some "subject", filename := none, text := "s", bytes := [] },
          { fname := some "body", filename := none, text := "b", bytes := [] }] ++
          { fname := some "file", filename := some "pic.png", text := "",
            bytes := [1] } ::
          ([] ++
            { fname := some "file", filename := some "clip.mp4", text := "",
              bytes := [2] } :: [])) (initAcc []) =
        FieldsOut.done a ∧
      a.media_url = some "/uploads/videos/bbb.mp4" ∧
      a.media_type = some MediaType.Video ∧
      ("./uploads/images/aaa.png", [1]) ∈ a.fs ∧
      ("./uploads/videos/bbb.mp4", [2]) ∈ a.fs ∧
      (strTrim a.name ≠ "" → strTrim a.subject ≠ "" → strTrim a.body ≠ "" →
        create_post (fun _ => true) (fun k => if k = 0 then "aaa" else "bbb") 7
          ([{ fname := some "name", filename := none, text := "anon", bytes := [] },
            { fname := some "subject", filename := none, text := "s", bytes := [] },
            { fname := some "body", filename := none, text := "b", bytes := [] }] ++
            { fname := some "file", filename := some "pic.png", text := "",
              bytes := [1] } ::
            ([] ++
              { fname := some "file", filename := some "clip.mp4", text := "",
                bytes := [2] } :: [])) { rows := [], nextId := 1 } [] =
          (HResp.seeOther "/",
           insert_post { rows := [], nextId := 1 }
             { id := 0, name := strTrim a.name, subject := strTrim a.subject,
               body := strTrim a.body, timestamp := 7,
               media_url := a.media_url, media_type := a.media_type },
           a.fs)) :=
  claim10_last_file_wins (fun _ => true) (fun k => if k = 0 then "aaa" else "bbb") 7
    [{ fname := some "name", filename := none, text := "anon", bytes := [] },
     { fname := some "subject", filename := none, text := "s", bytes := [] },
     { fname := some "body", filename := none, text := "b", bytes := [] }]
    [] []
    { fname := some "file", filename := some "pic.png", text := "", bytes := [1] }
    { fname := some "file", filename := some "clip.mp4", text := "", bytes := [2] }
    { rows := [], nextId := 1 } [] "pic.png" "clip.mp4"
    (by decide) (by decide) (by decide)
    rfl rfl (by decide) (Or.inl ⟨by decide, by decide, rfl⟩)
    rfl rfl (by decide) (Or.inr ⟨by decide, by decide⟩)

end Board
